import Mathlib

/-!
Verification of the normalization and summarization core of `repo_miner.py`.

Shallow embedding conventions:
* Timestamps are modelled as integers (seconds since the epoch); Python
  `datetime` subtraction followed by `timedelta.days` is `Int.fdiv` of the
  second difference by 86400 (Python's `.days` floors).
* `datetime.isoformat()` is an injective serialization of a timestamp; the
  model keeps the timestamp value itself in the rendered column.
* Python's `functools.reduce` is `List.foldl`; appending to the per-column
  lists of the record dictionaries is `++ [x]`.
* Python sequence slicing `xs[:m]` is `pySliceTo`.
-/

namespace RepoMiner

/-- Raw commit author descriptor (`commit.commit.author` in the source):
`name` and `email` may be missing (`None`), `date` is a timestamp. -/
structure CommitAuthor where
  name : Option String
  email : Option String
  date : Int
  deriving Repr, DecidableEq

/-- Inner commit object (`commit.commit` in the source). -/
structure CommitCommit where
  author : CommitAuthor
  message : String
  deriving Repr, DecidableEq

/-- Raw commit as received from the data source. -/
structure RawCommit where
  sha : String
  commit : CommitCommit
  deriving Repr, DecidableEq

/-- Column-oriented commit records built by `_conv_commits_to_record`:
a dictionary of five per-column lists. -/
structure CommitRecords where
  sha : List String
  author : List (Option String)
  email : List (Option String)
  date : List Int
  message : List String
  deriving Repr, DecidableEq

/-- The initial `records` dictionary of `_conv_commits_to_record`:
all five columns present and empty. -/
def commitRecordsInit : CommitRecords :=
  { sha := [], author := [], email := [], date := [], message := [] }

/-- The `merge` step of `_conv_commits_to_record`: append each field of the
commit to the corresponding column list. -/
def commitMerge (raw_dict : CommitRecords) (commit : RawCommit) : CommitRecords :=
  { sha := raw_dict.sha ++ [commit.sha]
    author := raw_dict.author ++ [commit.commit.author.name]
    email := raw_dict.email ++ [commit.commit.author.email]
    date := raw_dict.date ++ [commit.commit.author.date]
    message := raw_dict.message ++ [commit.commit.message] }

/-- `_conv_commits_to_record`: `reduce(merge, commits, records)`. -/
def conv_commits_to_record (commits : List RawCommit) : CommitRecords :=
  commits.foldl commitMerge commitRecordsInit

/-- Python sequence slice `xs[:m]` (the source slices the fetched sequence
with `[:max_commits]` / `[:max_issues]`): a nonnegative stop keeps the first
`m` items, a negative stop drops the last `|m|` items. -/
def pySliceTo (m : Int) (xs : List α) : List α :=
  if 0 ≤ m then xs.take m.toNat
  else xs.take (xs.length - (-m).toNat)

/-- `_get_commits_from_repo`: returns the full fetched sequence when
`max_commits is None`, else the slice `[:max_commits]`. -/
def get_commits_from_repo (commits : List RawCommit) (max_commits : Option Int) :
    List RawCommit :=
  match max_commits with
  | none => commits
  | some m => pySliceTo m commits

/-- `normalizeCommits` (the `fetch_commits` pipeline after the external
fetch): slice per `max`, then normalize into column records. -/
def normalizeCommits (commits : List RawCommit) (max_commits : Option Int) :
    CommitRecords :=
  conv_commits_to_record (get_commits_from_repo commits max_commits)

/-- Number of rows of a commit table (length of the `sha` column). -/
def commitRowCount (r : CommitRecords) : Nat :=
  r.sha.length

/-- Raw user descriptor (`issue.user`). -/
structure RawUser where
  login : String
  deriving Repr, DecidableEq

/-- Raw issue as received from the data source.  `pull_request = none`
models both a missing `pull_request` attribute and one set to `None`;
`pull_request = some ()` models a present, non-`None` marker. -/
structure RawIssue where
  id : Int
  number : Int
  title : String
  user : RawUser
  state : String
  created_at : Int
  closed_at : Option Int
  comments : Int
  pull_request : Option Unit
  deriving Repr, DecidableEq

/-- Column-oriented issue records built by `_conv_issues_to_record`. -/
structure IssueRecords where
  id : List Int
  number : List Int
  title : List String
  user : List String
  state : List String
  created_at : List Int
  closed_at : List (Option Int)
  comments : List Int
  open_duration_days : List (Option Int)
  deriving Repr, DecidableEq

/-- The initial `records` dictionary of `_conv_issues_to_record`:
all nine columns present and empty. -/
def issueRecordsInit : IssueRecords :=
  { id := [], number := [], title := [], user := [], state := []
    created_at := [], closed_at := [], comments := [], open_duration_days := [] }

/-- The `open_duration_days` computation of `_conv_issues_to_record`:
`None` unless `closed_at` is non-null, else `(closed - created).days`
(Python `timedelta.days` floors, hence `Int.fdiv` by 86400 seconds). -/
def issueOpenDuration (issue : RawIssue) : Option Int :=
  match issue.closed_at with
  | none => none
  | some closed => some (Int.fdiv (closed - issue.created_at) 86400)

/-- The `merge` step of `_conv_issues_to_record`: skip pull requests,
otherwise append each field (and the computed duration) to its column. -/
def issueMerge (raw_dict : IssueRecords) (issue : RawIssue) : IssueRecords :=
  if issue.pull_request.isSome then raw_dict
  else
    { id := raw_dict.id ++ [issue.id]
      number := raw_dict.number ++ [issue.number]
      title := raw_dict.title ++ [issue.title]
      user := raw_dict.user ++ [issue.user.login]
      state := raw_dict.state ++ [issue.state]
      created_at := raw_dict.created_at ++ [issue.created_at]
      closed_at := raw_dict.closed_at ++ [issue.closed_at]
      comments := raw_dict.comments ++ [issue.comments]
      open_duration_days := raw_dict.open_duration_days ++ [issueOpenDuration issue] }

/-- `_conv_issues_to_record`: `reduce(merge, issues, records)`. -/
def conv_issues_to_record (issues : List RawIssue) : IssueRecords :=
  issues.foldl issueMerge issueRecordsInit

/-- `_get_issues_from_repo` (the `state` filter is applied by the excluded
collaborator before this sequence is formed): full sequence when
`max_issues is None`, else the slice `[:max_issues]`. -/
def get_issues_from_repo (issues : List RawIssue) (max_issues : Option Int) :
    List RawIssue :=
  match max_issues with
  | none => issues
  | some m => pySliceTo m issues

/-- `normalizeIssues` (the `fetch_issues` pipeline after the external fetch):
slice per `max` (before PR filtering), then normalize into column records. -/
def normalizeIssues (issues : List RawIssue) (max_issues : Option Int) :
    IssueRecords :=
  conv_issues_to_record (get_issues_from_repo issues max_issues)

/-- Number of rows of an issue table (length of the `id` column). -/
def issueRowCount (r : IssueRecords) : Nat :=
  r.id.length

/-- The raw issues that are not pull-request-marked, in order. -/
def emittedIssues (issues : List RawIssue) : List RawIssue :=
  issues.filter fun i => i.pull_request.isNone

theorem foldl_issueMerge_columns (issues : List RawIssue) (d : IssueRecords) :
    List.foldl issueMerge d issues =
      { id := d.id ++ (emittedIssues issues).map (fun i => i.id)
        number := d.number ++ (emittedIssues issues).map (fun i => i.number)
        title := d.title ++ (emittedIssues issues).map (fun i => i.title)
        user := d.user ++ (emittedIssues issues).map (fun i => i.user.login)
        state := d.state ++ (emittedIssues issues).map (fun i => i.state)
        created_at := d.created_at ++ (emittedIssues issues).map (fun i => i.created_at)
        closed_at := d.closed_at ++ (emittedIssues issues).map (fun i => i.closed_at)
        comments := d.comments ++ (emittedIssues issues).map (fun i => i.comments)
        open_duration_days :=
          d.open_duration_days ++ (emittedIssues issues).map issueOpenDuration } := by
  induction issues generalizing d with
  | nil => simp [emittedIssues]
  | cons i is ih =>
    by_cases h : i.pull_request.isSome
    · simp only [List.foldl_cons, issueMerge, h, if_true]
      rw [ih]
      have hne : ¬ i.pull_request.isNone := by
        simp [Option.isNone_iff_eq_none, Option.isSome_iff_exists] at h ⊢
        rcases h with ⟨v, hv⟩
        simp [hv]
      simp [emittedIssues, List.filter_cons, hne]
    · simp only [List.foldl_cons, issueMerge, h, if_false]
      rw [ih]
      have hyes : i.pull_request.isNone := by
        cases hpr : i.pull_request with
        | none => simp
        | some v => simp [hpr] at h
      simp [emittedIssues, List.filter_cons, hyes]

/-- Columns of the normalized issue table for an unlimited fetch. -/
theorem conv_issues_columns (issues : List RawIssue) :
    conv_issues_to_record issues =
      { id := (emittedIssues issues).map (fun i => i.id)
        number := (emittedIssues issues).map (fun i => i.number)
        title := (emittedIssues issues).map (fun i => i.title)
        user := (emittedIssues issues).map (fun i => i.user.login)
        state := (emittedIssues issues).map (fun i => i.state)
        created_at := (emittedIssues issues).map (fun i => i.created_at)
        closed_at := (emittedIssues issues).map (fun i => i.closed_at)
        comments := (emittedIssues issues).map (fun i => i.comments)
        open_duration_days := (emittedIssues issues).map issueOpenDuration } := by
  unfold conv_issues_to_record
  rw [foldl_issueMerge_columns]
  simp [issueRecordsInit]

/-- C1: a pull-request-marked raw issue contributes no row to the table
produced by `normalizeIssues`: with `K` pull-request-marked items among `N`,
the table has exactly `N − K` rows, and it equals the table of the
pull-request-free subsequence (so no row comes from a marked item). -/
theorem normalizeIssues_excludes_pull_requests (issues : List RawIssue) :
    issueRowCount (normalizeIssues issues none) =
        issues.length - issues.countP (fun i => i.pull_request.isSome) ∧
      normalizeIssues issues none =
        normalizeIssues (issues.filter fun i => i.pull_request.isNone) none := by
  constructor
  · show (conv_issues_to_record issues).id.length = _
    rw [conv_issues_columns]
    simp only [List.length_map, emittedIssues]
    rw [← List.countP_eq_length_filter]
    have h := List.length_eq_countP_add_countP (fun i : RawIssue => i.pull_request.isSome)
      (l := issues)
    have hcompl : issues.countP (fun i => i.pull_request.isNone)
        = issues.countP (fun i => ¬ i.pull_request.isSome) := by
      apply List.countP_congr
      intro i _
      cases hpr : i.pull_request <;> simp [hpr]
    omega
  · simp only [normalizeIssues, get_issues_from_repo]
    rw [conv_issues_columns, conv_issues_columns]
    have : emittedIssues (issues.filter fun i => i.pull_request.isNone)
        = emittedIssues issues := by
      simp [emittedIssues, List.filter_filter]
    rw [this]

/-- C2: each emitted row with a non-null `closed_at` carries the floored
whole-day difference `closed − created` as `open_duration_days` (`Int.fdiv`
by 86400 seconds, matching Python's `timedelta.days`), and each emitted row
with a null `closed_at` carries a null duration — the model has no clock, so
the duration is never derived from the current time. -/
theorem open_duration_is_floor_days (issues : List RawIssue) (j : Nat) :
    (∀ c, (normalizeIssues issues none).closed_at[j]? = some (some c) →
      ∃ t, (normalizeIssues issues none).created_at[j]? = some t ∧
        (normalizeIssues issues none).open_duration_days[j]? =
          some (some (Int.fdiv (c - t) 86400))) ∧
    ((normalizeIssues issues none).closed_at[j]? = some none →
      (normalizeIssues issues none).open_duration_days[j]? = some none) := by
  simp only [normalizeIssues, get_issues_from_repo]
  rw [conv_issues_columns]
  simp only [List.getElem?_map]
  cases hj : (emittedIssues issues)[j]? with
  | none => simp
  | some e =>
    constructor
    · intro c hc
      refine ⟨e.created_at, rfl, ?_⟩
      have hce : e.closed_at = some c := by simpa using hc
      simp [issueOpenDuration, hce]
    · intro hc
      have hce : e.closed_at = none := by simpa using hc
      simp [issueOpenDuration, hce]

/-- Concrete closed issue: created at 0, closed 7 days + 1 hour later. -/
def riClosed : RawIssue :=
  { id := 1, number := 1, title := "Closed issue", user := { login := "alice" }
    state := "closed", created_at := 0, closed_at := some 608400, comments := 0
    pull_request := none }

/-- Concrete open issue: no `closed_at`. -/
def riOpen : RawIssue :=
  { id := 2, number := 2, title := "Open issue", user := { login := "bob" }
    state := "open", created_at := 0, closed_at := none, comments := 2
    pull_request := none }

/-- Concrete pull-request-marked raw item. -/
def riPullReq : RawIssue :=
  { id := 3, number := 3, title := "Feature", user := { login := "carol" }
    state := "closed", created_at := 0, closed_at := some 86400, comments := 3
    pull_request := some () }

/-- Witness for C2: closing 7 days + 1 hour after creation floors to 7 whole
days, and the open issue's duration is null. -/
theorem open_duration_is_floor_days_witness :
    (normalizeIssues [riClosed, riOpen] none).open_duration_days[0]? = some (some 7) ∧
      (normalizeIssues [riClosed, riOpen] none).open_duration_days[1]? = some none := by
  constructor
  · obtain ⟨t, ht, hd⟩ :=
      (open_duration_is_floor_days [riClosed, riOpen] 0).1 608400 (by decide)
    have ht0 : t = 0 := by
      have hc : (normalizeIssues [riClosed, riOpen] none).created_at[0]? = some 0 := by
        decide
      rw [hc] at ht
      exact (Option.some_inj.mp ht).symm
    rw [hd, ht0]
    decide
  · exact (open_duration_is_floor_days [riClosed, riOpen] 1).2 (by decide)

/-- C3: in every emitted row, `closed_at` is null exactly when
`open_duration_days` is null, and the `state` column is exactly the raw
states of the non-pull-request items, passed through verbatim. -/
theorem closed_at_null_iff_duration_null (issues : List RawIssue) (j : Nat)
    (c d : Option Int)
    (hc : (normalizeIssues issues none).closed_at[j]? = some c)
    (hd : (normalizeIssues issues none).open_duration_days[j]? = some d) :
    (c = none ↔ d = none) ∧
      (normalizeIssues issues none).state =
        (issues.filter fun i => i.pull_request.isNone).map (fun i => i.state) := by
  have hcols := conv_issues_columns issues
  constructor
  · simp only [normalizeIssues, get_issues_from_repo] at hc hd
    rw [hcols] at hc hd
    simp only [List.getElem?_map] at hc hd
    cases hj : (emittedIssues issues)[j]? with
    | none => rw [hj] at hc; simp at hc
    | some e =>
      rw [hj] at hc hd
      have hce : c = e.closed_at := by simpa using hc.symm
      have hde : d = issueOpenDuration e := by simpa using hd.symm
      subst hce hde
      cases hec : e.closed_at <;> simp [issueOpenDuration, hec]
  · show (conv_issues_to_record issues).state = _
    rw [hcols]
    rfl

/-- Witness for C3: on the concrete two-issue table, row 0 has non-null
`closed_at` and non-null duration, and the state column is verbatim. -/
theorem closed_at_null_iff_duration_null_witness :
    ((some 608400 : Option Int) = none ↔ (some 7 : Option Int) = none) ∧
      (normalizeIssues [riClosed, riOpen] none).state =
        ([riClosed, riOpen].filter fun i => i.pull_request.isNone).map
          (fun i => i.state) :=
  closed_at_null_iff_duration_null [riClosed, riOpen] 0 (some 608400) (some 7)
    (by decide) (by decide)

theorem foldl_commitMerge_columns (commits : List RawCommit) (d : CommitRecords) :
    List.foldl commitMerge d commits =
      { sha := d.sha ++ commits.map (fun c => c.sha)
        author := d.author ++ commits.map (fun c => c.commit.author.name)
        email := d.email ++ commits.map (fun c => c.commit.author.email)
        date := d.date ++ commits.map (fun c => c.commit.author.date)
        message := d.message ++ commits.map (fun c => c.commit.message) } := by
  induction commits generalizing d with
  | nil => simp
  | cons c cs ih =>
    simp only [List.foldl_cons, commitMerge]
    rw [ih]
    simp

/-- Columns of the normalized commit table: the five fixed columns, each the
image of the input sequence in source order. -/
theorem conv_commits_columns (commits : List RawCommit) :
    conv_commits_to_record commits =
      { sha := commits.map (fun c => c.sha)
        author := commits.map (fun c => c.commit.author.name)
        email := commits.map (fun c => c.commit.author.email)
        date := commits.map (fun c => c.commit.author.date)
        message := commits.map (fun c => c.commit.message) } := by
  unfold conv_commits_to_record
  rw [foldl_commitMerge_columns]
  simp [commitRecordsInit]

/-- C4: with a (nonnegative) maximum `m` set, `normalizeCommits` returns
exactly `min N m` rows; with the maximum unset, exactly `N` rows; each of
the five fixed columns is the image, in source order, of the corresponding
field of the (sliced) input; the empty input yields the zero-row table that
still carries all five fixed columns. -/
theorem normalizeCommits_rows_and_fields (commits : List RawCommit) (m : Int)
    (hm : 0 ≤ m) :
    commitRowCount (normalizeCommits commits (some m)) =
        min commits.length m.toNat ∧
      commitRowCount (normalizeCommits commits none) = commits.length ∧
      normalizeCommits commits (some m) =
        { sha := (commits.take m.toNat).map (fun c => c.sha)
          author := (commits.take m.toNat).map (fun c => c.commit.author.name)
          email := (commits.take m.toNat).map (fun c => c.commit.author.email)
          date := (commits.take m.toNat).map (fun c => c.commit.author.date)
          message := (commits.take m.toNat).map (fun c => c.commit.message) } ∧
      normalizeCommits commits none =
        { sha := commits.map (fun c => c.sha)
          author := commits.map (fun c => c.commit.author.name)
          email := commits.map (fun c => c.commit.author.email)
          date := commits.map (fun c => c.commit.author.date)
          message := commits.map (fun c => c.commit.message) } ∧
      normalizeCommits [] (some m) = commitRecordsInit := by
  have hslice : get_commits_from_repo commits (some m) = commits.take m.toNat := by
    simp [get_commits_from_repo, pySliceTo, hm]
  refine ⟨?_, ?_, ?_, ?_, ?_⟩
  · show (conv_commits_to_record (get_commits_from_repo commits (some m))).sha.length = _
    rw [hslice, conv_commits_columns]
    simp [Nat.min_comm]
  · show (conv_commits_to_record commits).sha.length = _
    rw [conv_commits_columns]
    simp
  · show conv_commits_to_record (get_commits_from_repo commits (some m)) = _
    rw [hslice, conv_commits_columns]
  · exact conv_commits_columns commits
  · show conv_commits_to_record (get_commits_from_repo [] (some m)) = _
    simp [get_commits_from_repo, pySliceTo, conv_commits_to_record]

/-- Concrete raw commits. -/
def rcA : RawCommit :=
  { sha := "sha1"
    commit := { author := { name := some "Alice", email := some "a@x", date := 100 }
                message := "Initial commit" } }

def rcB : RawCommit :=
  { sha := "sha2"
    commit := { author := { name := some "Bob", email := some "b@x", date := 200 }
                message := "Bug fix" } }

/-- Witness for C4: two commits with maximum 1 yield exactly one row. -/
theorem normalizeCommits_rows_and_fields_witness :
    commitRowCount (normalizeCommits [rcA, rcB] (some 1)) = 1 :=
  ((normalizeCommits_rows_and_fields [rcA, rcB] 1 (by decide)).1).trans (by decide)

/-- C8 counterexample: a negative maximum does not fail — at `max = -1` both
invocations return a perfectly ordinary (here zero-row) table. -/
theorem negative_max_counterexample :
    normalizeCommits [rcA] (some (-1)) = commitRecordsInit ∧
      normalizeIssues [riClosed] (some (-1)) = issueRecordsInit := by
  decide

/-- C8 amended: a negative maximum `m` is not rejected with a configuration
error; the invocation returns the normal table of the first
`N − |m|` (clamped at 0) input items, Python sequence slice semantics. -/
theorem negative_max_returns_table (commits : List RawCommit)
    (issues : List RawIssue) (m : Int) (hm : m < 0) :
    commitRowCount (normalizeCommits commits (some m)) =
        commits.length - (-m).toNat ∧
      normalizeCommits commits (some m) =
        conv_commits_to_record (commits.take (commits.length - (-m).toNat)) ∧
      normalizeIssues issues (some m) =
        conv_issues_to_record (issues.take (issues.length - (-m).toNat)) := by
  have h : ¬ 0 ≤ m := not_le.mpr hm
  have hslice : get_commits_from_repo commits (some m) =
      commits.take (commits.length - (-m).toNat) := by
    simp [get_commits_from_repo, pySliceTo, h]
  refine ⟨?_, ?_, ?_⟩
  · show (conv_commits_to_record (get_commits_from_repo commits (some m))).sha.length = _
    rw [hslice, conv_commits_columns]
    simp
  · show conv_commits_to_record (get_commits_from_repo commits (some m)) = _
    rw [hslice]
  · show conv_issues_to_record (get_issues_from_repo issues (some m)) = _
    simp [get_issues_from_repo, pySliceTo, h]

/-- Witness for C8's amended statement: two commits with maximum −1 yield a
one-row table (the last item sliced away), with no error raised. -/
theorem negative_max_returns_table_witness :
    commitRowCount (normalizeCommits [rcA, rcB] (some (-1))) = 1 :=
  ((negative_max_returns_table [rcA, rcB] [riOpen] (-1) (by decide)).1).trans
    (by decide)

/-! ## Summarizer (`merge_and_summarize`)

The summarizer receives arbitrary DataFrames (freshly produced or reloaded
from CSV).  A timestamp-column cell is null, a raw (still unparsed) value,
or an already-typed timestamp; `pd.to_datetime(..., errors="coerce")` is
modelled by an abstract tolerant parser `parse : String → Option Int`
applied cellwise, turning unparsable cells into nulls. -/

/-- A timestamp-column cell value: a raw string or a typed timestamp.
A whole cell is `Option TsVal`, `none` being null/NaT. -/
inductive TsVal where
  | raw (s : String)
  | ts (t : Int)
  deriving Repr, DecidableEq

/-- `pd.to_datetime(cell, errors="coerce")` on one cell: null stays null, a
raw string parses tolerantly (unparsable becomes null), a typed timestamp
is kept. -/
def coerceTs (parse : String → Option Int) : Option TsVal → Option TsVal
  | none => none
  | some (TsVal.raw s) => (parse s).map TsVal.ts
  | some (TsVal.ts t) => some (TsVal.ts t)

/-- Read a cell as a typed timestamp (`notna` + value); raw cells count as
missing, as the source only reads these columns after coercion. -/
def cellTs : Option TsVal → Option Int
  | some (TsVal.ts t) => some t
  | _ => none

/-- A commit-table row as seen by the summarizer. -/
structure SCommitRow where
  author : Option String
  date : Option TsVal
  deriving Repr, DecidableEq

/-- An issue-table row as seen by the summarizer. -/
structure SIssueRow where
  state : Option String
  created_at : Option TsVal
  closed_at : Option TsVal
  open_duration_days : Option Int
  deriving Repr, DecidableEq

/-- An issue table: its rows plus whether the `open_duration_days` column is
present at all (a reloaded CSV may lack it). -/
structure SIssueTable where
  rows : List SIssueRow
  hasOpenDurationCol : Bool
  deriving Repr, DecidableEq

/-- `commits["date"] = pd.to_datetime(commits["date"], errors="coerce")`. -/
def coerceCommitDates (parse : String → Option Int) (commits : List SCommitRow) :
    List SCommitRow :=
  commits.map fun r => { r with date := coerceTs parse r.date }

/-- The two issue-column coercions of step 1 of `merge_and_summarize`. -/
def coerceIssueDates (parse : String → Option Int) (t : SIssueTable) : SIssueTable :=
  { t with rows := t.rows.map fun r =>
      { r with created_at := coerceTs parse r.created_at
               closed_at := coerceTs parse r.closed_at } }

/-- `commits["author"].fillna("<unknown>")` on one cell: only a null author
is replaced by the sentinel. -/
def fillAuthor : Option String → String
  | none => "<unknown>"
  | some s => s

/-- The grouping keys fed to `value_counts`. -/
def authorKeys (commits : List SCommitRow) : List String :=
  commits.map fun r => fillAuthor r.author

/-- Distinct keys in first-seen order. -/
def uniqueKeys (xs : List String) : List String :=
  xs.foldl (fun acc k => if k ∈ acc then acc else acc ++ [k]) []

/-- Occurrences of a key. -/
def countKey (xs : List String) (k : String) : Nat :=
  xs.countP fun x => x == k

/-- Stable descending insertion by count (ties keep earlier keys first). -/
def insertByCount (x : String × Nat) : List (String × Nat) → List (String × Nat)
  | [] => [x]
  | y :: ys => if y.2 < x.2 then x :: y :: ys else y :: insertByCount x ys

/-- Stable sort, descending by count. -/
def sortByCountDesc (xs : List (String × Nat)) : List (String × Nat) :=
  xs.foldr insertByCount []

/-- `value_counts()`: keys with their multiplicities, sorted by count
descending (tie order implementation-defined; modelled as first-seen). -/
def valueCounts (xs : List String) : List (String × Nat) :=
  sortByCountDesc ((uniqueKeys xs).map fun k => (k, countKey xs k))

/-- Step 2 of `merge_and_summarize`:
`commits["author"].fillna("<unknown>").value_counts().head(5)`. -/
def topCommitters (commits : List SCommitRow) : List (String × Nat) :=
  (valueCounts (authorKeys commits)).take 5

/-- Step 3 of `merge_and_summarize`:
`(issues["state"].fillna("") == "closed").sum()`. -/
def closedCount (issues : SIssueTable) : Nat :=
  issues.rows.countP fun r => r.state.getD "" == "closed"

/-- Non-null entries of the `open_duration_days` column
(`pd.to_numeric(..., errors="coerce").dropna()`). -/
def nonNullDurations (t : SIssueTable) : List Int :=
  t.rows.filterMap fun r => r.open_duration_days

/-- Fallback durations when the column is absent: whole days of
`closed_at − created_at` over rows where both timestamps are present. -/
def fallbackDurations (t : SIssueTable) : List Int :=
  t.rows.filterMap fun r =>
    match cellTs r.closed_at, cellTs r.created_at with
    | some closed, some created => some (Int.fdiv (closed - created) 86400)
    | _, _ => none

/-- Arithmetic mean of a list of integers, as a rational. -/
def listMean (ds : List Int) : Rat :=
  (ds.sum : Rat) / (ds.length : Rat)

/-- Step 4 of `merge_and_summarize`: prefer the `open_duration_days` column
when present (null when it has no non-null entry), else fall back to the
timestamp difference of rows whose coerced timestamps are both present. -/
def avgOpenDays (t : SIssueTable) : Option Rat :=
  if t.hasOpenDurationCol then
    let odays := nonNullDurations t
    if odays.isEmpty then none else some (listMean odays)
  else
    let durations := fallbackDurations t
    if durations.isEmpty then none else some (listMean durations)

/-- The summary dictionary returned by `merge_and_summarize`. -/
structure Summary where
  top_committers : List (String × Nat)
  total_issues : Nat
  closed_issues : Nat
  close_rate : Option Rat
  avg_open_days : Option Rat
  deriving Repr, DecidableEq

/-- Steps 2–4 of `merge_and_summarize` on the already-coerced tables. -/
def summaryOf (commits : List SCommitRow) (issues : SIssueTable) : Summary :=
  let top_committers := topCommitters commits
  let total_issues := issues.rows.length
  let closed_issues := closedCount issues
  let close_rate : Option Rat :=
    if 0 < total_issues then some ((closed_issues : Rat) / (total_issues : Rat))
    else none
  let avg_open_days := avgOpenDays issues
  { top_committers, total_issues, closed_issues, close_rate, avg_open_days }

/-- The value computed by `merge_and_summarize` from the two input tables:
coerce the date columns (on copies), then aggregate. -/
def summarizeResult (parse : String → Option Int) (commits_df : List SCommitRow)
    (issues_df : SIssueTable) : Summary :=
  summaryOf (coerceCommitDates parse commits_df) (coerceIssueDates parse issues_df)

/-- C5: for every commit table and tolerant parser, summarizing against an
empty issue table (zero rows, full schema) yields a null close rate and a
null average open duration — a defined result, not an exception or NaN. -/
theorem summarize_empty_issue_table (parse : String → Option Int)
    (commits : List SCommitRow) :
    (summarizeResult parse commits { rows := [], hasOpenDurationCol := true }).close_rate
        = none ∧
      (summarizeResult parse commits
        { rows := [], hasOpenDurationCol := true }).avg_open_days = none := by
  constructor <;> rfl

/-- Coercing the date columns keeps the duration column. -/
theorem nonNullDurations_coerce (parse : String → Option Int) (t : SIssueTable) :
    nonNullDurations (coerceIssueDates parse t) = nonNullDurations t := by
  simp only [nonNullDurations, coerceIssueDates, List.filterMap_map]
  rfl

/-- Coercing the date columns keeps the column set. -/
theorem hasOpenDurationCol_coerce (parse : String → Option Int) (t : SIssueTable) :
    (coerceIssueDates parse t).hasOpenDurationCol = t.hasOpenDurationCol := rfl

/-- C6: `avg_open_days` is the mean (sum over count) of the non-null
`open_duration_days` entries when that column is present and non-trivially
populated; with the column absent it is the mean of the whole-day
`closed − created` differences over rows whose coerced timestamps are both
present; and when the relevant source has no value at all it is null. -/
theorem avg_open_days_cases (parse : String → Option Int)
    (commits : List SCommitRow) (t : SIssueTable) :
    (t.hasOpenDurationCol = true → nonNullDurations t ≠ [] →
      (summarizeResult parse commits t).avg_open_days =
        some (((nonNullDurations t).sum : Rat) / ((nonNullDurations t).length : Rat))) ∧
    (t.hasOpenDurationCol = true → nonNullDurations t = [] →
      (summarizeResult parse commits t).avg_open_days = none) ∧
    (t.hasOpenDurationCol = false →
      fallbackDurations (coerceIssueDates parse t) ≠ [] →
      (summarizeResult parse commits t).avg_open_days =
        some (((fallbackDurations (coerceIssueDates parse t)).sum : Rat) /
          ((fallbackDurations (coerceIssueDates parse t)).length : Rat))) ∧
    (t.hasOpenDurationCol = false →
      fallbackDurations (coerceIssueDates parse t) = [] →
      (summarizeResult parse commits t).avg_open_days = none) := by
  have havg : (summarizeResult parse commits t).avg_open_days =
      avgOpenDays (coerceIssueDates parse t) := rfl
  refine ⟨?_, ?_, ?_, ?_⟩
  · intro hcol hne
    rw [havg]
    simp [avgOpenDays, hasOpenDurationCol_coerce, hcol, nonNullDurations_coerce,
      List.isEmpty_iff, hne, listMean]
  · intro hcol heq
    rw [havg]
    simp [avgOpenDays, hasOpenDurationCol_coerce, hcol, nonNullDurations_coerce, heq]
  · intro hcol hne
    rw [havg]
    simp [avgOpenDays, hasOpenDurationCol_coerce, hcol, List.isEmpty_iff, hne, listMean]
  · intro hcol heq
    rw [havg]
    simp [avgOpenDays, hasOpenDurationCol_coerce, hcol, heq]

/-- Trivial tolerant parser used for concrete witnesses. -/
def parseNone : String → Option Int :=
  fun _ => none

/-- Concrete summarizer-level issue rows. -/
def sIssueFive : SIssueRow :=
  { state := some "closed", created_at := some (TsVal.ts 0)
    closed_at := some (TsVal.ts 432000), open_duration_days := some 5 }

def sIssueNine : SIssueRow :=
  { state := some "closed", created_at := some (TsVal.ts 0)
    closed_at := some (TsVal.ts 777600), open_duration_days := some 9 }

def sIssueOpenRow : SIssueRow :=
  { state := some "open", created_at := some (TsVal.ts 0)
    closed_at := none, open_duration_days := none }

/-- Witness for C6: durations 5 and 9 average to 7 through the column when
present and through the timestamp fallback when absent; a table with only an
open issue has a null average. -/
theorem avg_open_days_cases_witness :
    (summarizeResult parseNone []
        { rows := [sIssueFive, sIssueNine, sIssueOpenRow]
          hasOpenDurationCol := true }).avg_open_days = some 7 ∧
      (summarizeResult parseNone []
        { rows := [sIssueFive, sIssueNine, sIssueOpenRow]
          hasOpenDurationCol := false }).avg_open_days = some 7 ∧
      (summarizeResult parseNone []
        { rows := [sIssueOpenRow], hasOpenDurationCol := true }).avg_open_days
        = none := by
  refine ⟨?_, ?_, ?_⟩
  · have h := (avg_open_days_cases parseNone []
      { rows := [sIssueFive, sIssueNine, sIssueOpenRow]
        hasOpenDurationCol := true }).1 rfl (by decide)
    have hd : nonNullDurations
        { rows := [sIssueFive, sIssueNine, sIssueOpenRow]
          hasOpenDurationCol := true } = [5, 9] := by decide
    rw [h, hd]
    norm_num [List.sum_cons, List.sum_nil]
  · have h := (avg_open_days_cases parseNone []
      { rows := [sIssueFive, sIssueNine, sIssueOpenRow]
        hasOpenDurationCol := false }).2.2.1 rfl (by decide)
    have hd : fallbackDurations (coerceIssueDates parseNone
        { rows := [sIssueFive, sIssueNine, sIssueOpenRow]
          hasOpenDurationCol := false }) = [5, 9] := by decide
    rw [h, hd]
    norm_num [List.sum_cons, List.sum_nil]
  · exact (avg_open_days_cases parseNone []
      { rows := [sIssueOpenRow], hasOpenDurationCol := true }).2.1 rfl rfl

/-- C10: a row counts toward `closed_issues` exactly when its state is the
string `"closed"`; a null state counts as not closed (no exception), so the
closed count never exceeds the total. -/
theorem closed_issues_count (parse : String → Option Int)
    (commits : List SCommitRow) (t : SIssueTable) :
    (summarizeResult parse commits t).closed_issues =
        t.rows.countP (fun r => r.state == some "closed") ∧
      (summarizeResult parse commits t).closed_issues ≤
        (summarizeResult parse commits t).total_issues := by
  have hclosed : (summarizeResult parse commits t).closed_issues =
      t.rows.countP (fun r => r.state == some "closed") := by
    show closedCount (coerceIssueDates parse t) = _
    simp only [closedCount, coerceIssueDates, List.countP_map]
    apply List.countP_congr
    intro r _
    cases hs : r.state <;> simp [Function.comp, hs]
  refine ⟨hclosed, ?_⟩
  rw [hclosed]
  show _ ≤ (coerceIssueDates parse t).rows.length
  simp only [coerceIssueDates, List.length_map]
  exact List.countP_le_length _

/-- C7 counterexample: a commit row whose author is the empty string is
grouped under the empty string, not under the sentinel — the whole top list
is `[("", 1)]`. -/
theorem empty_author_groups_as_empty_string :
    (summarizeResult parseNone [{ author := some "", date := none }]
        { rows := [], hasOpenDurationCol := true }).top_committers
      = [("", 1)] := by
  decide

/-- C7 amended: only a missing (null) author is grouped under the sentinel
`<unknown>` (an empty-string author stays grouped under the empty string),
and the substitution happens only at summarization time — `normalizeCommits`
emits the author value unchanged. -/
theorem author_sentinel_only_null (parse : String → Option Int)
    (commits : List SCommitRow) (rawCommits : List RawCommit) :
    countKey (authorKeys (coerceCommitDates parse commits)) "<unknown>" =
        commits.countP (fun r => r.author == none || r.author == some "<unknown>") ∧
      countKey (authorKeys (coerceCommitDates parse commits)) "" =
        commits.countP (fun r => r.author == some "") ∧
      (normalizeCommits rawCommits none).author =
        rawCommits.map (fun c => c.commit.author.name) := by
  have hkeys : authorKeys (coerceCommitDates parse commits) =
      commits.map fun r => fillAuthor r.author := by
    simp [authorKeys, coerceCommitDates, List.map_map]
  refine ⟨?_, ?_, ?_⟩
  · rw [hkeys]
    simp only [countKey, List.countP_map]
    apply List.countP_congr
    intro r _
    cases hr : r.author <;> simp [Function.comp, fillAuthor, hr]
  · rw [hkeys]
    simp only [countKey, List.countP_map]
    apply List.countP_congr
    intro r _
    cases hr : r.author <;> simp [Function.comp, fillAuthor, hr]
  · show (conv_commits_to_record rawCommits).author = _
    rw [conv_commits_columns]

/-! ## Reference/mutation model for the summarizer

`merge_and_summarize` receives references to the caller's DataFrames,
calls `.copy()` on each, and then mutates (column-assigns) only the copies.
A small heap of tables makes this observable: `.copy()` allocates a fresh
slot, column assignment overwrites a slot in place. -/

/-- The heap of live DataFrames; a reference is an index into a list. -/
structure PdHeap where
  commitTables : List (List SCommitRow)
  issueTables : List SIssueTable
  deriving Repr, DecidableEq

/-- `.copy()` on a commit table: allocate a fresh slot holding the same
value and return its reference. -/
def heapAllocCommit (h : PdHeap) (t : List SCommitRow) : PdHeap × Nat :=
  ({ h with commitTables := h.commitTables ++ [t] }, h.commitTables.length)

/-- In-place column assignment on the commit table at a reference. -/
def heapSetCommit (h : PdHeap) (i : Nat) (t : List SCommitRow) : PdHeap :=
  { h with commitTables := h.commitTables.set i t }

/-- Dereference a commit-table reference. -/
def heapGetCommit (h : PdHeap) (i : Nat) : List SCommitRow :=
  h.commitTables[i]?.getD []

/-- `.copy()` on an issue table. -/
def heapAllocIssue (h : PdHeap) (t : SIssueTable) : PdHeap × Nat :=
  ({ h with issueTables := h.issueTables ++ [t] }, h.issueTables.length)

/-- In-place column assignment on the issue table at a reference. -/
def heapSetIssue (h : PdHeap) (i : Nat) (t : SIssueTable) : PdHeap :=
  { h with issueTables := h.issueTables.set i t }

/-- Dereference an issue-table reference. -/
def heapGetIssue (h : PdHeap) (i : Nat) : SIssueTable :=
  h.issueTables[i]?.getD { rows := [], hasOpenDurationCol := true }

/-- `merge_and_summarize` over the heap: copy both inputs, coerce the date
columns of the copies in place, aggregate, and return the final heap with
the summary dictionary. -/
def merge_and_summarize (parse : String → Option Int) (h0 : PdHeap)
    (commits_df issues_df : Nat) : PdHeap × Summary :=
  let copied := heapAllocCommit h0 (heapGetCommit h0 commits_df)
  let h1 := copied.1
  let commits := copied.2
  let h2 := heapSetCommit h1 commits (coerceCommitDates parse (heapGetCommit h1 commits))
  let copiedIss := heapAllocIssue h2 (heapGetIssue h2 issues_df)
  let h3 := copiedIss.1
  let issues := copiedIss.2
  let h4 := heapSetIssue h3 issues (coerceIssueDates parse (heapGetIssue h3 issues))
  (h4, summaryOf (heapGetCommit h4 commits) (heapGetIssue h4 issues))

theorem getElem?_append_singleton (l : List α) (a : α) :
    (l ++ [a])[l.length]? = some a := by
  rw [List.getElem?_append_right (Nat.le_refl _)]
  simp

theorem getElem?_set_append_singleton (l : List α) (a b : α) :
    ((l ++ [a]).set l.length b)[l.length]? = some b :=
  List.getElem?_set_self (by simp)

/-- C9: `merge_and_summarize` never mutates its inputs: the caller's commit
and issue tables are bit-for-bit unchanged in the final heap, even though
the summarizer coerces date columns in place (on the copies), and the
summary it returns is exactly the pure function of the two input values. -/
theorem summarize_leaves_inputs_unchanged (parse : String → Option Int)
    (h : PdHeap) (cdf idf : Nat)
    (hc : cdf < h.commitTables.length) (hi : idf < h.issueTables.length) :
    (merge_and_summarize parse h cdf idf).1.commitTables[cdf]? =
        h.commitTables[cdf]? ∧
      (merge_and_summarize parse h cdf idf).1.issueTables[idf]? =
        h.issueTables[idf]? ∧
      (merge_and_summarize parse h cdf idf).2 =
        summarizeResult parse (heapGetCommit h cdf) (heapGetIssue h idf) := by
  have hcne : h.commitTables.length ≠ cdf := Nat.ne_of_gt hc
  have hine : h.issueTables.length ≠ idf := Nat.ne_of_gt hi
  refine ⟨?_, ?_, ?_⟩
  · show ((h.commitTables ++ [heapGetCommit h cdf]).set h.commitTables.length _)[cdf]?
        = h.commitTables[cdf]?
    rw [List.getElem?_set_ne hcne, List.getElem?_append_left hc]
  · show ((h.issueTables ++ [heapGetIssue h idf]).set h.issueTables.length _)[idf]?
        = h.issueTables[idf]?
    rw [List.getElem?_set_ne hine, List.getElem?_append_left hi]
  · simp only [merge_and_summarize, heapAllocCommit, heapSetCommit, heapAllocIssue,
      heapSetIssue, heapGetCommit, heapGetIssue, summarizeResult,
      getElem?_append_singleton, getElem?_set_append_singleton, Option.getD_some]

/-- Witness for C9 on a one-table heap: the caller's commit table is
untouched by summarization. -/
theorem summarize_leaves_inputs_unchanged_witness :
    (merge_and_summarize parseNone
        { commitTables := [[{ author := some "Alice", date := none }]]
          issueTables := [{ rows := [sIssueFive], hasOpenDurationCol := true }] }
        0 0).1.commitTables[0]? =
      ({ commitTables := [[{ author := some "Alice", date := none }]]
         issueTables := [{ rows := [sIssueFive], hasOpenDurationCol := true }] } :
          PdHeap).commitTables[0]? :=
  (summarize_leaves_inputs_unchanged parseNone
    { commitTables := [[{ author := some "Alice", date := none }]]
      issueTables := [{ rows := [sIssueFive], hasOpenDurationCol := true }] }
    0 0 (by decide) (by decide)).1

end RepoMiner
